import Mathlib

/-
Verification development for the NetworkClient transport endpoint
(src/src/net/NetworkClient.cpp, src/src/net/NetworkClient.h).

The endpoint is shallowly embedded as a state machine: the fields of the
NCState structure mirror the member variables of the C++ class, the
functions below mirror its member functions, and the asynchronous reactor
is modelled by an explicit stream of events (read completions, local
disconnect requests, and send outcomes) folded over the step function.
Consumer-visible behaviour (receive_datagram and receive_disconnect calls,
plus read issuance) is recorded in an output log.
-/

namespace Astron

/-- Observable actions of the endpoint: a datagram delivered to the
consumer (NetworkHandler::receive_datagram), a disconnect notification
(NetworkHandler::receive_disconnect) with its error-code cause, and the
issuance of an asynchronous read (socket_read inside async_receive). -/
inductive OutEvent where
  | msg (payload : List Nat) : OutEvent
  | disc (ec : Nat) : OutEvent
  | readIssued : OutEvent
deriving DecidableEq, Repr

/-- State of one NetworkClient. Error codes are modelled as naturals with
0 meaning success (boost::system::error_code evaluates to false exactly
when its value is 0). The payload buffer m_data_buf is a byte list whose
length is the allocated size; m_size_buf is not stored because the size
bytes arrive directly in each completion event. -/
structure NCState where
  socket_open : Bool
  disconnect_handled : Bool
  local_disconnect : Bool
  disconnect_error : Nat
  data_buf : List Nat
  data_size : Nat
  is_data : Bool
  reading : Bool
  log : List OutEvent
deriving DecidableEq, Repr

/-- Width in bytes of the datagram length field (sizeof(dgsize_t)).
Modelled from the spec: dgsize_t is defined outside src/ in core/global.h;
the spec fixes only that the width is a protocol constant (16 or 32 bits),
and Astron's default dgsize_t is a 16-bit unsigned integer. -/
def dgsizeBytes : Nat := 2

/-- Error value used for boost broken_pipe (errc_t::broken_pipe). -/
def brokenPipe : Nat := 32

/-- Little-endian encoding of a length into dgsizeBytes bytes, as produced
by swap_le on the send side (NetworkClient.cpp line 94). -/
def encodeLE (n : Nat) : List Nat := [n % 256, n / 256 % 256]

/-- Little-endian decoding of the size buffer, as done by
swap_le(*new_size_p) in receive_size (NetworkClient.cpp line 157). -/
def decodeLE (l : List Nat) : Nat := l.foldr (fun b acc => b % 256 + 256 * acc) 0

/-- Effect on the payload buffer of a completed read that transferred the
bytes d: asio writes them at the start of the buffer, the rest keeps its
old contents. The completion events never carry more bytes than were
requested (asio transfers at most the requested count), so the buffer
length is preserved. -/
def writeInto (d buf : List Nat) : List Nat := d ++ buf.drop d.length

/-- NetworkClient::disconnect(ec) (lines 115-121): record the cause, mark
the disconnect as locally initiated, and close the socket. -/
def disconnect (ec : Nat) (s : NCState) : NCState :=
  { s with local_disconnect := true, disconnect_error := ec, socket_open := false }

/-- NetworkClient::handle_disconnect (lines 123-139): idempotent finalize
step. First caller wins; close the socket if still open; notify the
consumer with the recorded local cause if locally initiated, otherwise
with the triggering error. -/
def handle_disconnect (ec : Nat) (s : NCState) : NCState :=
  if s.disconnect_handled then s
  else
    let s1 := { s with disconnect_handled := true }
    let s2 := if s1.socket_open then { s1 with socket_open := false } else s1
    if s2.local_disconnect then
      { s2 with log := s2.log ++ [OutEvent.disc s2.disconnect_error] }
    else
      { s2 with log := s2.log ++ [OutEvent.disc ec] }

/-- NetworkClient::async_receive (lines 74-88): issue the next read (for
the size header when m_is_data is false, for the payload otherwise). The
model marks a read outstanding and logs the issuance; a failure of the
socket is reported by the reactor as an errored completion event. -/
def async_receive (s : NCState) : NCState :=
  { s with reading := true, log := s.log ++ [OutEvent.readIssued] }

/-- Number of bytes requested by the currently registered read
(socket_read with m_data_size when m_is_data, else sizeof(dgsize_t)). -/
def expectedLen (s : NCState) : Nat := if s.is_data then s.data_size else dgsizeBytes

/-- NetworkClient::receive_size (lines 141-164): completion handler of the
size read. d is the content of m_size_buf actually transferred, so
bytes_transferred is d.length. On success, decode the length, reallocate
m_data_buf when the new length exceeds the previous m_data_size, set
m_is_data and issue the payload read. -/
def receive_size (ec : Nat) (d : List Nat) (s : NCState) : NCState :=
  if ec ≠ 0 then handle_disconnect ec s
  else if d.length ≠ dgsizeBytes then handle_disconnect brokenPipe s
  else
    let new_size := decodeLE d
    let s1 :=
      if s.data_size < new_size then
        { s with data_size := new_size, data_buf := List.replicate new_size 0 }
      else
        { s with data_size := new_size }
    async_receive { s1 with is_data := true }

/-- NetworkClient::receive_data (lines 166-183): completion handler of the
payload read. d is the byte sequence transferred into m_data_buf. On
success, deliver a copy of the first m_data_size buffer bytes to the
consumer, reset m_is_data and issue the next size read. -/
def receive_data (ec : Nat) (d : List Nat) (s : NCState) : NCState :=
  if ec ≠ 0 then handle_disconnect ec s
  else
    let s0 := { s with data_buf := writeInto d s.data_buf }
    if d.length ≠ s0.data_size then handle_disconnect brokenPipe s0
    else
      let s1 := { s0 with
        is_data := false,
        log := s0.log ++ [OutEvent.msg (s0.data_buf.take s0.data_size)] }
      async_receive s1

/-- NetworkClient::send_datagram (lines 90-107) as observed on the
endpoint state: the gathered write either succeeds (ec = 0, no state
change) or throws, in which case the error is swallowed into
disconnect(err.code()). -/
def send_datagram (ec : Nat) (s : NCState) : NCState :=
  if ec ≠ 0 then disconnect ec s else s

/-- Bytes placed on the wire by send_datagram for one datagram (lines
94-101): the little-endian length prefixed to the payload, written as a
single gathered operation. -/
def sendBytes (payload : List Nat) : List Nat := encodeLE payload.length ++ payload

/-- Reactor events driving one endpoint: completion of the outstanding
read (with error code and transferred bytes), an explicit local
disconnect request, and a send whose write outcome is given. -/
inductive Ev where
  | complete (ec : Nat) (d : List Nat) : Ev
  | localDisconnect (ec : Nat) : Ev
  | send (ec : Nat) : Ev
deriving DecidableEq, Repr

/-- One reactor event applied to the endpoint state. A completion is only
meaningful while a read is outstanding; asio transfers at most the
requested byte count, hence the truncation of d to expectedLen. The
registered handler is receive_data when m_is_data was set by the previous
size read, receive_size otherwise. -/
def step (s : NCState) (e : Ev) : NCState :=
  match e with
  | Ev.localDisconnect ec => disconnect ec s
  | Ev.send ec => send_datagram ec s
  | Ev.complete ec d =>
      if s.reading then
        let d2 := d.take (expectedLen s)
        let s0 := { s with reading := false }
        if s.is_data then receive_data ec d2 s0 else receive_size ec d2 s0
      else s

/-- Freshly constructed client (constructor, lines 9-11) already handed a
connected, open socket: m_data_buf is null (length 0), m_data_size 0,
m_is_data false, no read outstanding, nothing delivered yet. -/
def mkClient : NCState :=
  { socket_open := true
    disconnect_handled := false
    local_disconnect := false
    disconnect_error := 0
    data_buf := []
    data_size := 0
    is_data := false
    reading := false
    log := [] }

/-- NetworkClient::initialize together with determine_endpoints (lines
28-45 and 60-72): discovery_ec is the error code produced by querying the
socket endpoints. On failure the endpoint is disconnected with that cause
and the receive loop is not started; on success the first size read is
issued. -/
def init_client (discovery_ec : Nat) (s : NCState) : NCState :=
  if discovery_ec ≠ 0 then disconnect discovery_ec s else async_receive s

/-- Endpoint state right after a successful initialize. -/
def initSt : NCState := init_client 0 mkClient

/-- Run a sequence of reactor events from a state. -/
def run (s : NCState) (es : List Ev) : NCState := es.foldl step s

/-- Drive the receive loop against a scripted input byte stream: while a
read is outstanding and the stream holds enough bytes, complete the read
successfully with exactly the requested bytes. Fuel bounds the number of
completions. -/
def feedStream : Nat → List Nat → NCState → NCState
  | 0, _, s => s
  | n + 1, stream, s =>
      if s.reading = true ∧ expectedLen s ≤ stream.length then
        feedStream n (stream.drop (expectedLen s))
          (step s (Ev.complete 0 (stream.take (expectedLen s))))
      else s

/-- Wire bytes of a back-to-back sequence of datagrams. -/
def encodeStream : List (List Nat) → List Nat
  | [] => []
  | m :: tl => sendBytes m ++ encodeStream tl

/-- Expected consumer-visible log of an error-free receive loop: for each
message, the payload read issuance, then the delivery, then the next size
read issuance. -/
def deliveryLog : List (List Nat) → List OutEvent
  | [] => []
  | m :: tl => OutEvent.readIssued :: OutEvent.msg m :: OutEvent.readIssued :: deliveryLog tl

/-- Number of disconnect notifications in a log. -/
def discCount : List OutEvent → Nat
  | [] => 0
  | OutEvent.disc _ :: tl => discCount tl + 1
  | OutEvent.msg _ :: tl => discCount tl
  | OutEvent.readIssued :: tl => discCount tl

/-- Payloads delivered to the consumer, in order, in a log. -/
def msgsOf : List OutEvent → List (List Nat)
  | [] => []
  | OutEvent.msg p :: tl => p :: msgsOf tl
  | OutEvent.disc _ :: tl => msgsOf tl
  | OutEvent.readIssued :: tl => msgsOf tl

/-! Basic lemmas about the observation log. -/

@[simp] lemma discCount_nil : discCount [] = 0 := rfl

@[simp] lemma discCount_cons_msg (p : List Nat) (t : List OutEvent) :
    discCount (OutEvent.msg p :: t) = discCount t := rfl

@[simp] lemma discCount_cons_disc (e : Nat) (t : List OutEvent) :
    discCount (OutEvent.disc e :: t) = discCount t + 1 := rfl

@[simp] lemma discCount_cons_read (t : List OutEvent) :
    discCount (OutEvent.readIssued :: t) = discCount t := rfl

@[simp] lemma discCount_append (a b : List OutEvent) :
    discCount (a ++ b) = discCount a + discCount b := by
  induction a with
  | nil => simp
  | cons h t ih =>
      cases h with
      | msg p => simp [ih]
      | disc e => simp [ih]; omega
      | readIssued => simp [ih]

@[simp] lemma msgsOf_nil : msgsOf [] = [] := rfl

@[simp] lemma msgsOf_cons_msg (p : List Nat) (t : List OutEvent) :
    msgsOf (OutEvent.msg p :: t) = p :: msgsOf t := rfl

@[simp] lemma msgsOf_cons_disc (e : Nat) (t : List OutEvent) :
    msgsOf (OutEvent.disc e :: t) = msgsOf t := rfl

@[simp] lemma msgsOf_cons_read (t : List OutEvent) :
    msgsOf (OutEvent.readIssued :: t) = msgsOf t := rfl

@[simp] lemma msgsOf_append (a b : List OutEvent) :
    msgsOf (a ++ b) = msgsOf a ++ msgsOf b := by
  induction a with
  | nil => simp
  | cons h t ih => cases h <;> simp [ih]

/-! Field lemmas for the disconnect arbiter. -/

@[simp] lemma hd_handled (ec : Nat) (s : NCState) :
    (handle_disconnect ec s).disconnect_handled = true := by
  unfold handle_disconnect
  split
  · assumption
  · dsimp only
    split <;> split <;> rfl

@[simp] lemma hd_reading (ec : Nat) (s : NCState) :
    (handle_disconnect ec s).reading = s.reading := by
  unfold handle_disconnect
  split
  · rfl
  · dsimp only
    split <;> split <;> rfl

@[simp] lemma hd_local (ec : Nat) (s : NCState) :
    (handle_disconnect ec s).local_disconnect = s.local_disconnect := by
  unfold handle_disconnect
  split
  · rfl
  · dsimp only
    split <;> split <;> rfl

@[simp] lemma hd_data_size (ec : Nat) (s : NCState) :
    (handle_disconnect ec s).data_size = s.data_size := by
  unfold handle_disconnect
  split
  · rfl
  · dsimp only
    split <;> split <;> rfl

@[simp] lemma hd_data_buf (ec : Nat) (s : NCState) :
    (handle_disconnect ec s).data_buf = s.data_buf := by
  unfold handle_disconnect
  split
  · rfl
  · dsimp only
    split <;> split <;> rfl

lemma hd_log (ec : Nat) (s : NCState) (hh : s.disconnect_handled = false) :
    (handle_disconnect ec s).log =
      s.log ++ [OutEvent.disc (if s.local_disconnect then s.disconnect_error else ec)] := by
  unfold handle_disconnect
  rw [hh]
  dsimp only
  simp only [Bool.false_eq_true, if_false]
  split <;> split <;> simp_all

lemma hd_log_of_handled (ec : Nat) (s : NCState) (hh : s.disconnect_handled = true) :
    (handle_disconnect ec s).log = s.log := by
  unfold handle_disconnect
  rw [hh]
  rfl

lemma hd_discCount (ec : Nat) (s : NCState) (hh : s.disconnect_handled = false) :
    discCount (handle_disconnect ec s).log = discCount s.log + 1 := by
  rw [hd_log ec s hh]
  simp

/-! Case characterizations of the two completion handlers. -/

lemma receive_size_error (ec : Nat) (d : List Nat) (s : NCState) (hec : ec ≠ 0) :
    receive_size ec d s = handle_disconnect ec s := by
  unfold receive_size
  rw [if_pos hec]

lemma receive_size_short (d : List Nat) (s : NCState) (hlen : d.length ≠ dgsizeBytes) :
    receive_size 0 d s = handle_disconnect brokenPipe s := by
  unfold receive_size
  rw [if_neg (by simp), if_pos hlen]

lemma receive_size_grow (d : List Nat) (s : NCState) (hlen : d.length = dgsizeBytes)
    (hgrow : s.data_size < decodeLE d) :
    receive_size 0 d s =
      async_receive
        { s with
          data_size := decodeLE d
          data_buf := List.replicate (decodeLE d) 0
          is_data := true } := by
  unfold receive_size
  rw [if_neg (by simp), if_neg (by simp [hlen])]
  dsimp only
  rw [if_pos hgrow]

lemma receive_size_keep (d : List Nat) (s : NCState) (hlen : d.length = dgsizeBytes)
    (hkeep : ¬s.data_size < decodeLE d) :
    receive_size 0 d s =
      async_receive
        { s with
          data_size := decodeLE d
          is_data := true } := by
  unfold receive_size
  rw [if_neg (by simp), if_neg (by simp [hlen])]
  dsimp only
  rw [if_neg hkeep]

lemma receive_data_error (ec : Nat) (d : List Nat) (s : NCState) (hec : ec ≠ 0) :
    receive_data ec d s = handle_disconnect ec s := by
  unfold receive_data
  rw [if_pos hec]

lemma receive_data_short (d : List Nat) (s : NCState) (hlen : d.length ≠ s.data_size) :
    receive_data 0 d s =
      handle_disconnect brokenPipe { s with data_buf := writeInto d s.data_buf } := by
  unfold receive_data
  rw [if_neg (by simp)]
  dsimp only
  rw [if_pos (by simpa using hlen)]

lemma receive_data_success (d : List Nat) (s : NCState) (hlen : d.length = s.data_size) :
    receive_data 0 d s =
      async_receive
        { s with
          data_buf := writeInto d s.data_buf
          is_data := false
          log := s.log ++ [OutEvent.msg ((writeInto d s.data_buf).take s.data_size)] } := by
  unfold receive_data
  rw [if_neg (by simp)]
  dsimp only
  rw [if_neg (by simpa using hlen)]

/-! Running event lists. -/

@[simp] lemma run_nil (s : NCState) : run s [] = s := rfl

lemma run_cons (s : NCState) (e : Ev) (es : List Ev) :
    run s (e :: es) = run (step s e) es := rfl

lemma run_append (s : NCState) (a b : List Ev) :
    run s (a ++ b) = run (run s a) b := by
  simp [run, List.foldl_append]

/-- Once no read is outstanding, no handler can ever run again: the log,
the reading flag, and the handled flag are frozen for the rest of the
lifetime (a local disconnect or failed send still mutates the disconnect
record but produces no notification). -/
lemma run_quiesced (es : List Ev) (s : NCState) (hr : s.reading = false) :
    (run s es).log = s.log ∧ (run s es).reading = false ∧
      (run s es).disconnect_handled = s.disconnect_handled := by
  induction es generalizing s with
  | nil => simp [hr]
  | cons e t ih =>
      rw [run_cons]
      have hs : (step s e).log = s.log ∧ (step s e).reading = false ∧
          (step s e).disconnect_handled = s.disconnect_handled := by
        cases e with
        | localDisconnect ec => simp [step, disconnect, hr]
        | send ec =>
            simp only [step, send_datagram]
            split <;> simp [disconnect, hr]
        | complete ec d => simp [step, hr]
      obtain ⟨h1, h2, h3⟩ := hs
      obtain ⟨g1, g2, g3⟩ := ih (step s e) h2
      exact ⟨by rw [g1, h1], g2, by rw [g3, h3]⟩

/-- Invariant of the disconnect arbiter: the number of notifications in
the log is 0 before the finalize step has run and 1 afterwards, and once
it has run no read is outstanding any more. -/
def InvOnce (s : NCState) : Prop :=
  discCount s.log = (if s.disconnect_handled then 1 else 0) ∧
    (s.disconnect_handled = true → s.reading = false)

lemma invOnce_after_hd (ec : Nat) (X : NCState) (hh : X.disconnect_handled = false)
    (hc : discCount X.log = 0) (hrd : X.reading = false) :
    InvOnce (handle_disconnect ec X) := by
  constructor
  · simp [hd_discCount ec X hh, hc]
  · intro _
    rw [hd_reading, hrd]

lemma invOnce_after_async (X : NCState) (hh : X.disconnect_handled = false)
    (hc : discCount X.log = 0) : InvOnce (async_receive X) := by
  constructor
  · simp [async_receive, hc, hh]
  · intro hcon
    simp [async_receive, hh] at hcon

lemma invOnce_step (s : NCState) (e : Ev) (h : InvOnce s) : InvOnce (step s e) := by
  obtain ⟨h1, h2⟩ := h
  cases e with
  | localDisconnect ec =>
      exact ⟨by simpa [step, disconnect] using h1, by simpa [step, disconnect] using h2⟩
  | send ec =>
      constructor
      · simp only [step, send_datagram]
        split <;> simpa [disconnect] using h1
      · simp only [step, send_datagram]
        split <;> simpa [disconnect] using h2
  | complete ec d =>
      by_cases hr : s.reading = true
      · have hh : s.disconnect_handled = false := by
          cases hdh : s.disconnect_handled
          · rfl
          · exact absurd (h2 hdh) (by simp [hr])
        have hc0 : discCount s.log = 0 := by rw [h1, hh]; rfl
        simp only [step, hr, if_true]
        set d2 := d.take (expectedLen s) with hd2
        set s0 : NCState := { s with reading := false } with hs0
        have hh0 : s0.disconnect_handled = false := hh
        have hc0' : discCount s0.log = 0 := hc0
        split
        · by_cases hec : ec = 0
          · subst hec
            by_cases hlen : d2.length = s0.data_size
            · rw [receive_data_success d2 s0 hlen]
              exact invOnce_after_async _ hh0 (by simp [hc0'])
            · rw [receive_data_short d2 s0 hlen]
              exact invOnce_after_hd _ _ hh0 hc0' rfl
          · rw [receive_data_error ec d2 s0 hec]
            exact invOnce_after_hd _ _ hh0 hc0' rfl
        · by_cases hec : ec = 0
          · subst hec
            by_cases hlen : d2.length = dgsizeBytes
            · by_cases hgrow : s0.data_size < decodeLE d2
              · rw [receive_size_grow d2 s0 hlen hgrow]
                exact invOnce_after_async _ hh0 hc0'
              · rw [receive_size_keep d2 s0 hlen hgrow]
                exact invOnce_after_async _ hh0 hc0'
            · rw [receive_size_short d2 s0 hlen]
              exact invOnce_after_hd _ _ hh0 hc0' rfl
          · rw [receive_size_error ec d2 s0 hec]
            exact invOnce_after_hd _ _ hh0 hc0' rfl
      · have hr' : s.reading = false := by simpa using hr
        simp only [step, hr', Bool.false_eq_true, if_false]
        exact ⟨h1, h2⟩

lemma invOnce_run (es : List Ev) (s : NCState) (h : InvOnce s) : InvOnce (run s es) := by
  induction es generalizing s with
  | nil => simpa using h
  | cons e t ih => rw [run_cons]; exact ih _ (invOnce_step s e h)

lemma invOnce_initial (ec : Nat) : InvOnce (init_client ec mkClient) := by
  unfold init_client
  split
  · exact ⟨by simp [disconnect, mkClient], by simp [disconnect, mkClient]⟩
  · exact ⟨by simp [async_receive, mkClient], by simp [async_receive, mkClient]⟩

/-- Once the finalize step has run, it has run for good. -/
lemma run_handled_mono (es : List Ev) (s : NCState) (h : InvOnce s)
    (hh : s.disconnect_handled = true) :
    (run s es).disconnect_handled = true := by
  induction es generalizing s with
  | nil => simpa using hh
  | cons e t ih =>
      rw [run_cons]
      refine ih _ (invOnce_step s e h) ?_
      have hr : s.reading = false := h.2 hh
      cases e with
      | localDisconnect ec => simpa [step, disconnect] using hh
      | send ec =>
          simp only [step, send_datagram]
          split <;> simpa [disconnect] using hh
      | complete ec d => simpa [step, hr] using hh

/-- An errored completion of an outstanding read always runs the finalize
step (receive_size and receive_data both route a nonzero error code into
handle_disconnect). -/
lemma step_complete_error_handled (s : NCState) (ec : Nat) (d : List Nat)
    (hr : s.reading = true) (hec : ec ≠ 0) :
    (step s (Ev.complete ec d)).disconnect_handled = true := by
  simp only [step, hr, if_true]
  split
  · rw [receive_data_error _ _ _ hec]; exact hd_handled _ _
  · rw [receive_size_error _ _ _ hec]; exact hd_handled _ _

/-! Little-endian length field. -/

@[simp] lemma encodeLE_length (n : Nat) : (encodeLE n).length = dgsizeBytes := rfl

@[simp] lemma encodeLE_take (n : Nat) : (encodeLE n).take dgsizeBytes = encodeLE n := rfl

lemma decodeLE_encodeLE (L : Nat) (h : L < 65536) : decodeLE (encodeLE L) = L := by
  simp [decodeLE, encodeLE]
  omega

/-! Payload buffer writes. -/

lemma writeInto_length_ge (d b : List Nat) : b.length ≤ (writeInto d b).length := by
  simp [writeInto]
  omega

lemma writeInto_length_of_le (d b : List Nat) (h : d.length ≤ b.length) :
    (writeInto d b).length = b.length := by
  simp [writeInto]
  omega

lemma writeInto_take (d b : List Nat) :
    (writeInto d b).take d.length = d := by
  rw [writeInto]
  exact List.take_left d (b.drop d.length)

/-! Symbolic execution of a successful size read and a successful payload
read of the outstanding completion. -/

lemma step_size_grow (s : NCState) (L : Nat) (hr : s.reading = true)
    (hd : s.is_data = false) (hL : L < 65536) (hgrow : s.data_size < L) :
    step s (Ev.complete 0 (encodeLE L)) =
      async_receive
        { s with
          reading := false
          data_size := L
          data_buf := List.replicate L 0
          is_data := true } := by
  have hdec : decodeLE (encodeLE L) = L := decodeLE_encodeLE L hL
  simp only [step, hr, if_true, hd, Bool.false_eq_true, if_false]
  rw [show expectedLen s = dgsizeBytes from by simp [expectedLen, hd]]
  rw [encodeLE_take]
  rw [receive_size_grow (encodeLE L) _ rfl (by rw [hdec]; exact hgrow)]
  rw [hdec]

lemma step_size_keep (s : NCState) (L : Nat) (hr : s.reading = true)
    (hd : s.is_data = false) (hL : L < 65536) (hkeep : ¬s.data_size < L) :
    step s (Ev.complete 0 (encodeLE L)) =
      async_receive
        { s with
          reading := false
          data_size := L
          is_data := true } := by
  have hdec : decodeLE (encodeLE L) = L := decodeLE_encodeLE L hL
  simp only [step, hr, if_true, hd, Bool.false_eq_true, if_false]
  rw [show expectedLen s = dgsizeBytes from by simp [expectedLen, hd]]
  rw [encodeLE_take]
  rw [receive_size_keep (encodeLE L) _ rfl (by rw [hdec]; exact hkeep)]
  rw [hdec]

lemma step_data_ok (s : NCState) (p : List Nat) (hr : s.reading = true)
    (hd : s.is_data = true) (hl : p.length = s.data_size) :
    step s (Ev.complete 0 p) =
      async_receive
        { s with
          reading := false
          data_buf := writeInto p s.data_buf
          is_data := false
          log := s.log ++ [OutEvent.msg p] } := by
  have htp : p.take s.data_size = p := by
    rw [← hl]
    exact List.take_length p
  have htw : (writeInto p s.data_buf).take s.data_size = p := by
    rw [← hl]
    exact writeInto_take p s.data_buf
  simp only [step, hr, if_true, hd, if_true]
  rw [show expectedLen s = s.data_size from by simp [expectedLen, hd]]
  rw [htp]
  rw [receive_data_success p { s with is_data := true, reading := false } hl]
  simp [async_receive, htw]

/-! Capacity invariant: the allocated payload buffer always holds at
least the currently expected payload length. -/

def InvCap (s : NCState) : Prop := s.data_size ≤ s.data_buf.length

lemma invCap_step (s : NCState) (e : Ev) (h : InvCap s) : InvCap (step s e) := by
  cases e with
  | localDisconnect ec => simpa [InvCap, step, disconnect] using h
  | send ec =>
      unfold InvCap
      simp only [step, send_datagram]
      split <;> simpa [disconnect] using h
  | complete ec d =>
      by_cases hr : s.reading = true
      · simp only [step, hr, if_true]
        set d2 := d.take (expectedLen s) with hd2
        set s0 : NCState := { s with reading := false } with hs0
        have h0 : InvCap s0 := h
        split
        · by_cases hec : ec = 0
          · subst hec
            by_cases hlen : d2.length = s0.data_size
            · rw [receive_data_success d2 s0 hlen]
              unfold InvCap at h0 ⊢
              simp only [async_receive]
              exact le_trans h0 (writeInto_length_ge d2 s0.data_buf)
            · rw [receive_data_short d2 s0 hlen]
              unfold InvCap at h0 ⊢
              simp only [hd_data_size, hd_data_buf]
              exact le_trans h0 (writeInto_length_ge d2 s0.data_buf)
          · rw [receive_data_error ec d2 s0 hec]
            unfold InvCap at h0 ⊢
            simp only [hd_data_size, hd_data_buf]
            exact h0
        · by_cases hec : ec = 0
          · subst hec
            by_cases hlen : d2.length = dgsizeBytes
            · by_cases hgrow : s0.data_size < decodeLE d2
              · rw [receive_size_grow d2 s0 hlen hgrow]
                unfold InvCap
                simp [async_receive]
              · rw [receive_size_keep d2 s0 hlen hgrow]
                unfold InvCap at h0 ⊢
                simp only [async_receive]
                exact le_trans (Nat.le_of_not_lt hgrow) h0
            · rw [receive_size_short d2 s0 hlen]
              unfold InvCap at h0 ⊢
              simp only [hd_data_size, hd_data_buf]
              exact h0
          · rw [receive_size_error ec d2 s0 hec]
            unfold InvCap at h0 ⊢
            simp only [hd_data_size, hd_data_buf]
            exact h0
      · have hr' : s.reading = false := by simpa using hr
        simpa [step, hr'] using h

lemma invCap_run (es : List Ev) (s : NCState) (h : InvCap s) : InvCap (run s es) := by
  induction es generalizing s with
  | nil => simpa using h
  | cons e t ih => rw [run_cons]; exact ih _ (invCap_step s e h)

/-! Driving the receive loop with a scripted error-free byte stream. -/

lemma feedStream_succ (n : Nat) (stream : List Nat) (s : NCState)
    (hr : s.reading = true) (hle : expectedLen s ≤ stream.length) :
    feedStream (n + 1) stream s =
      feedStream n (stream.drop (expectedLen s))
        (step s (Ev.complete 0 (stream.take (expectedLen s)))) := by
  rw [feedStream]
  rw [if_pos ⟨hr, hle⟩]

/-- Endpoint states in which the loop is between messages and healthy:
awaiting a size header, not yet finalized, buffer capacity sufficient. -/
def Ready (s : NCState) : Prop :=
  s.reading = true ∧ s.is_data = false ∧ s.disconnect_handled = false ∧
    s.data_size ≤ s.data_buf.length

/-- Processing one framed message from the head of the stream takes two
successful completions and appends exactly the expected observations. -/
lemma feed_two_steps (n : Nat) (s : NCState) (m rest : List Nat)
    (hs : Ready s) (hmL : m.length < 65536) :
    ∃ s2 : NCState,
      feedStream (n + 2) (sendBytes m ++ rest) s = feedStream n rest s2 ∧
      Ready s2 ∧
      s2.log = s.log ++ [OutEvent.readIssued, OutEvent.msg m, OutEvent.readIssued] := by
  obtain ⟨hr, hd, hh, hcap⟩ := hs
  have hassoc : sendBytes m ++ rest = encodeLE m.length ++ (m ++ rest) := by
    simp [sendBytes]
  have hel : expectedLen s = dgsizeBytes := by simp [expectedLen, hd]
  have hlen1 : dgsizeBytes ≤ (encodeLE m.length ++ (m ++ rest)).length := by
    simp [encodeLE, dgsizeBytes]
  have htake1 : (encodeLE m.length ++ (m ++ rest)).take dgsizeBytes = encodeLE m.length :=
    List.take_left' rfl
  have hdrop1 : (encodeLE m.length ++ (m ++ rest)).drop dgsizeBytes = m ++ rest :=
    List.drop_left' rfl
  rw [hassoc, show n + 2 = (n + 1) + 1 from rfl]
  rw [feedStream_succ _ _ _ hr (by rw [hel]; exact hlen1)]
  rw [hel, htake1, hdrop1]
  by_cases hgrow : s.data_size < m.length
  · rw [step_size_grow s m.length hr hd hmL hgrow]
    set s1 : NCState := async_receive
      { s with
        reading := false
        data_size := m.length
        data_buf := List.replicate m.length 0
        is_data := true } with hs1
    have hr1 : s1.reading = true := rfl
    have he1 : expectedLen s1 = m.length := rfl
    have hlen2 : expectedLen s1 ≤ (m ++ rest).length := by
      rw [he1]
      simp
    rw [feedStream_succ _ _ _ hr1 hlen2]
    rw [he1, List.take_left' rfl, List.drop_left' rfl]
    rw [step_data_ok s1 m rfl rfl rfl]
    refine ⟨_, rfl, ⟨rfl, rfl, hh, ?_⟩, ?_⟩
    · show s1.data_size ≤ (writeInto m s1.data_buf).length
      rw [writeInto_length_of_le m s1.data_buf (by simp [hs1, async_receive])]
      simp [hs1, async_receive]
    · show (s1.log ++ [OutEvent.msg m]) ++ [OutEvent.readIssued] =
        s.log ++ [OutEvent.readIssued, OutEvent.msg m, OutEvent.readIssued]
      simp [hs1, async_receive]
  · rw [step_size_keep s m.length hr hd hmL hgrow]
    set s1 : NCState := async_receive
      { s with
        reading := false
        data_size := m.length
        is_data := true } with hs1
    have hr1 : s1.reading = true := rfl
    have he1 : expectedLen s1 = m.length := rfl
    have hlen2 : expectedLen s1 ≤ (m ++ rest).length := by
      rw [he1]
      simp
    rw [feedStream_succ _ _ _ hr1 hlen2]
    rw [he1, List.take_left' rfl, List.drop_left' rfl]
    rw [step_data_ok s1 m rfl rfl rfl]
    refine ⟨_, rfl, ⟨rfl, rfl, hh, ?_⟩, ?_⟩
    · show s1.data_size ≤ (writeInto m s1.data_buf).length
      have hms : m.length ≤ s.data_buf.length :=
        le_trans (le_trans (Nat.le_of_not_lt hgrow) hcap) (le_refl _)
      rw [writeInto_length_of_le m s1.data_buf (by simpa [hs1, async_receive] using hms)]
      simpa [hs1, async_receive] using hms
    · show (s1.log ++ [OutEvent.msg m]) ++ [OutEvent.readIssued] =
        s.log ++ [OutEvent.readIssued, OutEvent.msg m, OutEvent.readIssued]
      simp [hs1, async_receive]

/-- Error-free delivery of a whole scripted message sequence. -/
lemma feed_msgs (ms : List (List Nat)) (s : NCState) (hs : Ready s)
    (hm : ∀ m ∈ ms, m.length < 65536) :
    Ready (feedStream (2 * ms.length) (encodeStream ms) s) ∧
      (feedStream (2 * ms.length) (encodeStream ms) s).log = s.log ++ deliveryLog ms := by
  induction ms generalizing s with
  | nil =>
      simp only [List.length_nil, Nat.mul_zero, encodeStream, feedStream, deliveryLog,
        List.append_nil]
      exact ⟨hs, trivial⟩
  | cons m tl ih =>
      have hfuel : 2 * (m :: tl).length = 2 * tl.length + 2 := by
        simp [List.length_cons]
        ring
      rw [hfuel, show encodeStream (m :: tl) = sendBytes m ++ encodeStream tl from rfl]
      obtain ⟨s2, hstep, hs2, hlog2⟩ :=
        feed_two_steps (2 * tl.length) s m (encodeStream tl) hs (hm m (by simp))
      rw [hstep]
      obtain ⟨hready, hlog⟩ := ih s2 hs2 (fun x hx => hm x (by simp [hx]))
      refine ⟨hready, ?_⟩
      rw [hlog, hlog2]
      simp [deliveryLog]

/-! Facts about the freshly initialized endpoint. -/

lemma ready_initSt : Ready initSt := ⟨rfl, rfl, rfl, le_rfl⟩

/-! Claim theorems. -/

/-- Claim C3: if a local disconnect with cause c1 is issued and the
pending read afterwards completes with error c2, the consumer is notified
with the recorded local cause c1, not c2. -/
theorem claim3_local_cause (c1 c2 : Nat) (d : List Nat) (hc2 : c2 ≠ 0) :
    (run initSt [Ev.localDisconnect c1, Ev.complete c2 d]).log =
      [OutEvent.readIssued, OutEvent.disc c1] := by
  rw [run_cons, run_cons, run_nil]
  rw [show step initSt (Ev.localDisconnect c1) = disconnect c1 initSt from rfl]
  set t := disconnect c1 initSt with ht
  have hr : t.reading = true := rfl
  have hstep : step t (Ev.complete c2 d) =
      handle_disconnect c2 { t with reading := false } := by
    simp only [step, hr, if_true, show t.is_data = false from rfl, Bool.false_eq_true,
      if_false]
    exact receive_size_error c2 _ _ hc2
  rw [hstep]
  rw [hd_log c2 _ rfl]
  rfl

/-- Witness for claim C3 at the concrete causes 3 and 5. -/
theorem claim3_local_cause_witness :
    (run initSt [Ev.localDisconnect 3, Ev.complete 5 []]).log =
      [OutEvent.readIssued, OutEvent.disc 3] :=
  claim3_local_cause 3 5 [] (by decide)

/-- Claim C5 (code bug): when endpoint address discovery fails at bind
time (modelled here with discovery error code 2), the endpoint is indeed
immediately disconnected with that failure recorded as cause, the receive
loop never starts and no message is ever delivered; however, contrary to
the claim and to the contract stated in NetworkClient.h, the consumer
never receives the disconnect notification: handle_disconnect is never
invoked because no asynchronous operation is pending, so the log stays
empty for the whole lifetime, whatever happens afterwards. -/
theorem claim5_discovery_failure (es : List Ev) :
    (init_client 2 mkClient).local_disconnect = true ∧
    (init_client 2 mkClient).disconnect_error = 2 ∧
    (init_client 2 mkClient).socket_open = false ∧
    (init_client 2 mkClient).reading = false ∧
    (run (init_client 2 mkClient) es).log = [] := by
  refine ⟨rfl, rfl, rfl, rfl, ?_⟩
  have h := run_quiesced es (init_client 2 mkClient) rfl
  exact h.1.trans rfl

/-- Counterexample to claim C6: a write that fails with transport error 7
does set the locally-initiated flag, because send_datagram swallows the
failure by calling disconnect(err.code()). -/
theorem claim6_cex : (run initSt [Ev.send 7]).local_disconnect = true := rfl

/-- Claim C6 as amended: a failed read routes to the finalize step
without setting the locally-initiated flag, and its cause is delivered
as-is; a failed write instead records the write error through the
local-disconnect path (setting the flag), and when the aborted read then
completes the delivered cause is still the triggering write error, not
the abort code. -/
theorem claim6_error_routing :
    (∀ ec d, ec ≠ 0 →
      (step initSt (Ev.complete ec d)).local_disconnect = false ∧
      (step initSt (Ev.complete ec d)).log =
        [OutEvent.readIssued, OutEvent.disc ec]) ∧
    (∀ ec ec2 d, ec ≠ 0 → ec2 ≠ 0 →
      (run initSt [Ev.send ec, Ev.complete ec2 d]).local_disconnect = true ∧
      (run initSt [Ev.send ec, Ev.complete ec2 d]).log =
        [OutEvent.readIssued, OutEvent.disc ec]) := by
  constructor
  · intro ec d hec
    have hstep : step initSt (Ev.complete ec d) =
        handle_disconnect ec { initSt with reading := false } := by
      simp only [step, show initSt.reading = true from rfl, if_true,
        show initSt.is_data = false from rfl, Bool.false_eq_true, if_false]
      exact receive_size_error ec _ _ hec
    constructor
    · rw [hstep, hd_local]
      rfl
    · rw [hstep, hd_log ec _ rfl]
      rfl
  · intro ec ec2 d hec hec2
    rw [run_cons, run_cons, run_nil]
    have hsend : step initSt (Ev.send ec) = disconnect ec initSt := by
      simp only [step, send_datagram]
      rw [if_pos hec]
    rw [hsend]
    set t := disconnect ec initSt with ht
    have hr : t.reading = true := rfl
    have hstep : step t (Ev.complete ec2 d) =
        handle_disconnect ec2 { t with reading := false } := by
      simp only [step, hr, if_true, show t.is_data = false from rfl, Bool.false_eq_true,
        if_false]
      exact receive_size_error ec2 _ _ hec2
    rw [hstep]
    refine ⟨by rw [hd_local]; rfl, ?_⟩
    rw [hd_log ec2 _ rfl]
    rfl

/-- Witness for the amended claim C6 at concrete error codes 7 and 9. -/
theorem claim6_error_routing_witness :
    ((step initSt (Ev.complete 7 [])).local_disconnect = false ∧
      (step initSt (Ev.complete 7 [])).log =
        [OutEvent.readIssued, OutEvent.disc 7]) ∧
    ((run initSt [Ev.send 7, Ev.complete 9 [5]]).local_disconnect = true ∧
      (run initSt [Ev.send 7, Ev.complete 9 [5]]).log =
        [OutEvent.readIssued, OutEvent.disc 7]) :=
  ⟨claim6_error_routing.1 7 [] (by decide),
   claim6_error_routing.2 7 9 [5] (by decide) (by decide)⟩

/-- Claim C7: in either receive state, a read that completes successfully
but short (fewer bytes than the exact requested count) disconnects the
endpoint with the broken-pipe cause; no read is outstanding afterwards
and for the entire rest of the lifetime the log never grows again, so no
further message and no further notification is ever delivered. -/
theorem claim7_short_read (s : NCState) (d : List Nat) (es : List Ev)
    (hr : s.reading = true) (hh : s.disconnect_handled = false)
    (hl : s.local_disconnect = false) (hshort : d.length < expectedLen s) :
    (step s (Ev.complete 0 d)).reading = false ∧
    (run (step s (Ev.complete 0 d)) es).log = s.log ++ [OutEvent.disc brokenPipe] ∧
    (run (step s (Ev.complete 0 d)) es).reading = false := by
  have htake : d.take (expectedLen s) = d := List.take_of_length_le (le_of_lt hshort)
  have key : ∀ X : NCState, X.disconnect_handled = false → X.local_disconnect = false →
      X.reading = false → X.log = s.log →
      (handle_disconnect brokenPipe X).reading = false ∧
      (run (handle_disconnect brokenPipe X) es).log = s.log ++ [OutEvent.disc brokenPipe] ∧
      (run (handle_disconnect brokenPipe X) es).reading = false := by
    intro X hX1 hX2 hX3 hX4
    have hr0 : (handle_disconnect brokenPipe X).reading = false := by
      rw [hd_reading, hX3]
    have hlog0 : (handle_disconnect brokenPipe X).log =
        s.log ++ [OutEvent.disc brokenPipe] := by
      rw [hd_log _ _ hX1]
      simp [hX2, hX4]
    obtain ⟨q1, q2, _⟩ := run_quiesced es _ hr0
    exact ⟨hr0, by rw [q1, hlog0], q2⟩
  by_cases hid : s.is_data = true
  · have hlt : d.length < s.data_size := by
      simpa [expectedLen, hid] using hshort
    have hstep : step s (Ev.complete 0 d) = handle_disconnect brokenPipe
        { s with reading := false, data_buf := writeInto d s.data_buf } := by
      simp only [step, hr, if_true, hid, if_true]
      rw [htake]
      exact receive_data_short d _ (Nat.ne_of_lt hlt)
    rw [hstep]
    exact key _ hh hl rfl rfl
  · have hid' : s.is_data = false := by simpa using hid
    have hlt : d.length < dgsizeBytes := by
      simpa [expectedLen, hid'] using hshort
    have hstep : step s (Ev.complete 0 d) = handle_disconnect brokenPipe
        { s with reading := false } := by
      simp only [step, hr, if_true, hid', Bool.false_eq_true, if_false]
      rw [htake]
      exact receive_size_short d _ (Nat.ne_of_lt hlt)
    rw [hstep]
    exact key _ hh hl rfl rfl

/-- Witness for claim C7: a one-byte completion of the two-byte size read
on a fresh endpoint, followed by a later spurious completion. -/
theorem claim7_short_read_witness :
    (step initSt (Ev.complete 0 [9])).reading = false ∧
    (run (step initSt (Ev.complete 0 [9])) [Ev.complete 0 [1, 2]]).log =
      initSt.log ++ [OutEvent.disc brokenPipe] ∧
    (run (step initSt (Ev.complete 0 [9])) [Ev.complete 0 [1, 2]]).reading = false :=
  claim7_short_read initSt [9] [Ev.complete 0 [1, 2]] rfl rfl rfl (by decide)

/-- Claim C9: along every run of the initialized endpoint the expected
payload length never exceeds the allocated payload buffer size, so in
particular whenever a payload read is issued (m_is_data set, read
outstanding) the buffer can hold the bytes that will be written into it. -/
theorem claim9_capacity (es : List Ev) :
    (run initSt es).data_size ≤ (run initSt es).data_buf.length :=
  invCap_run es initSt le_rfl

/-- Claim C10: a length prefix decoding to 0 is treated as a valid
message: the endpoint issues the zero-byte payload read, delivers an
empty message to the consumer, and continues the loop awaiting the next
size header instead of disconnecting. -/
theorem claim10_zero_length (s : NCState) (hr : s.reading = true)
    (hd : s.is_data = false) (hh : s.disconnect_handled = false) :
    (run s [Ev.complete 0 (encodeLE 0), Ev.complete 0 []]).log =
      s.log ++ [OutEvent.readIssued, OutEvent.msg [], OutEvent.readIssued] ∧
    (run s [Ev.complete 0 (encodeLE 0), Ev.complete 0 []]).reading = true ∧
    (run s [Ev.complete 0 (encodeLE 0), Ev.complete 0 []]).disconnect_handled = false := by
  rw [run_cons, run_cons, run_nil]
  rw [step_size_keep s 0 hr hd (by omega) (by omega)]
  set S1 : NCState := async_receive { s with reading := false, data_size := 0, is_data := true }
    with hS1
  rw [step_data_ok S1 [] rfl rfl rfl]
  refine ⟨?_, rfl, ?_⟩
  · show (S1.log ++ [OutEvent.msg []]) ++ [OutEvent.readIssued] =
      s.log ++ [OutEvent.readIssued, OutEvent.msg [], OutEvent.readIssued]
    rw [hS1]
    simp [async_receive]
  · exact hh

/-- Witness for claim C10 on the freshly initialized endpoint. -/
theorem claim10_zero_length_witness :
    (run initSt [Ev.complete 0 (encodeLE 0), Ev.complete 0 []]).log =
      initSt.log ++ [OutEvent.readIssued, OutEvent.msg [], OutEvent.readIssued] ∧
    (run initSt [Ev.complete 0 (encodeLE 0), Ev.complete 0 []]).reading = true ∧
    (run initSt [Ev.complete 0 (encodeLE 0), Ev.complete 0 []]).disconnect_handled = false :=
  claim10_zero_length initSt rfl rfl rfl

/-- Counterexample to claim C1: on an endpoint whose bind-time address
discovery failed (discovery error 2), a write error (failed send with
error 7) and an explicit local disconnect request both occur, yet no
disconnect notification is ever delivered — not exactly one — because no
read was ever pending and handle_disconnect is never reached. -/
theorem claim1_cex :
    discCount (run (init_client 2 mkClient) [Ev.send 7, Ev.localDisconnect 3]).log = 0 :=
  rfl

/-- Claim C1 as amended: the disconnect notification is delivered at most
once over any endpoint lifetime, whatever the bind outcome and whatever
events occur in whatever order; and for an endpoint whose receive loop is
running (a read outstanding), it is delivered exactly once as soon as the
pending read completes with an error — which is how each of the four
trigger kinds terminates the loop — and stays delivered-once forever
after. -/
theorem claim1_once :
    (∀ ec es, discCount (run (init_client ec mkClient) es).log ≤ 1) ∧
    (∀ es1 ec d es2, ec ≠ 0 → (run initSt es1).reading = true →
      discCount (run initSt (es1 ++ Ev.complete ec d :: es2)).log = 1) := by
  constructor
  · intro ec es
    obtain ⟨hcount, _⟩ := invOnce_run es _ (invOnce_initial ec)
    rw [hcount]
    split <;> omega
  · intro es1 ec d es2 hec hr
    rw [run_append, run_cons]
    set t := run initSt es1 with htdef
    have ht : InvOnce t := invOnce_run es1 _ (invOnce_initial 0)
    have h1 : (step t (Ev.complete ec d)).disconnect_handled = true :=
      step_complete_error_handled t ec d hr hec
    have h2 : InvOnce (step t (Ev.complete ec d)) := invOnce_step t _ ht
    have h3 : (run (step t (Ev.complete ec d)) es2).disconnect_handled = true :=
      run_handled_mono es2 _ h2 h1
    obtain ⟨hcount, _⟩ := invOnce_run es2 _ h2
    rw [hcount, h3]
    rfl

/-- Witness for the amended claim C1: at-most-once on a failed-bind
endpoint, and exactly-once when the first completion of the running loop
reports error 7, whatever happens afterwards. -/
theorem claim1_once_witness :
    discCount (run (init_client 2 mkClient) [Ev.send 7]).log ≤ 1 ∧
    discCount (run initSt ([] ++ Ev.complete 7 [] :: [Ev.localDisconnect 3])).log = 1 :=
  ⟨claim1_once.1 2 [Ev.send 7],
   claim1_once.2 [] 7 [] [Ev.localDisconnect 3] (by decide) rfl⟩

/-- Counterexample to claim C2: the payload buffer capacity does shrink
and does not stay at the largest length seen. After receiving a message
of length 10 the capacity is 10; when the lengths 5 and then 7 follow,
receive_size compares 7 against the previous m_data_size 5 (not against
the capacity 10), reallocates although 7 does not exceed the capacity,
and the capacity drops from 10 to 7. -/
theorem claim2_cex :
    (run initSt [Ev.complete 0 (encodeLE 10),
      Ev.complete 0 (List.replicate 10 1)]).data_buf.length = 10 ∧
    (run initSt [Ev.complete 0 (encodeLE 10), Ev.complete 0 (List.replicate 10 1),
      Ev.complete 0 (encodeLE 5), Ev.complete 0 (List.replicate 5 1),
      Ev.complete 0 (encodeLE 7)]).data_buf.length = 7 :=
  ⟨rfl, rfl⟩

/-- Claim C2 as amended: the payload buffer is reallocated exactly when a
decoded length exceeds the previous message's length, not the capacity;
consequently, after a message of length L1 followed immediately by one of
length L2 < L1, no reallocation happens for L2, the capacity after both
is still L1 (in particular at least L1), and both messages are delivered
correctly. -/
theorem claim2_growth (L1 L2 : Nat) (p1 p2 : List Nat) (hp1 : p1.length = L1)
    (hp2 : p2.length = L2) (h21 : L2 < L1) (hL1 : L1 < 65536) :
    (run initSt [Ev.complete 0 (encodeLE L1), Ev.complete 0 p1,
      Ev.complete 0 (encodeLE L2), Ev.complete 0 p2]).data_buf.length = L1 ∧
    msgsOf (run initSt [Ev.complete 0 (encodeLE L1), Ev.complete 0 p1,
      Ev.complete 0 (encodeLE L2), Ev.complete 0 p2]).log = [p1, p2] := by
  have h01 : (0 : Nat) < L1 := by omega
  have hL2 : L2 < 65536 := by omega
  set S1 : NCState := async_receive
    { initSt with
      reading := false
      data_size := L1
      data_buf := List.replicate L1 0
      is_data := true } with hS1
  set S2 : NCState := async_receive
    { S1 with
      reading := false
      data_buf := writeInto p1 S1.data_buf
      is_data := false
      log := S1.log ++ [OutEvent.msg p1] } with hS2
  set S3 : NCState := async_receive
    { S2 with reading := false, data_size := L2, is_data := true } with hS3
  set S4 : NCState := async_receive
    { S3 with
      reading := false
      data_buf := writeInto p2 S3.data_buf
      is_data := false
      log := S3.log ++ [OutEvent.msg p2] } with hS4
  have e1 : step initSt (Ev.complete 0 (encodeLE L1)) = S1 := by
    rw [hS1]
    exact step_size_grow initSt L1 rfl rfl hL1 h01
  have e2 : step S1 (Ev.complete 0 p1) = S2 := by
    rw [hS2]
    exact step_data_ok S1 p1 rfl rfl hp1
  have e3 : step S2 (Ev.complete 0 (encodeLE L2)) = S3 := by
    rw [hS3]
    refine step_size_keep S2 L2 rfl rfl hL2 ?_
    have hds : S2.data_size = L1 := rfl
    omega
  have e4 : step S3 (Ev.complete 0 p2) = S4 := by
    rw [hS4]
    exact step_data_ok S3 p2 rfl rfl hp2
  have eRun : run initSt [Ev.complete 0 (encodeLE L1), Ev.complete 0 p1,
      Ev.complete 0 (encodeLE L2), Ev.complete 0 p2] = S4 := by
    rw [run_cons, e1, run_cons, e2, run_cons, e3, run_cons, e4, run_nil]
  rw [eRun]
  have i1 : (writeInto p1 (List.replicate L1 0)).length = L1 := by
    rw [writeInto_length_of_le p1 _ (by simp [hp1])]
    simp
  constructor
  · show S4.data_buf.length = L1
    rw [show S4.data_buf = writeInto p2 (writeInto p1 (List.replicate L1 0)) from rfl]
    rw [writeInto_length_of_le p2 _ (by rw [i1, hp2]; omega), i1]
  · show msgsOf S4.log = [p1, p2]
    rw [hS4, hS3, hS2, hS1]
    simp [async_receive, initSt, init_client, mkClient]

/-- Witness for the amended claim C2 with lengths 2 and 1. -/
theorem claim2_growth_witness :
    (run initSt [Ev.complete 0 (encodeLE 2), Ev.complete 0 [5, 6],
      Ev.complete 0 (encodeLE 1), Ev.complete 0 [7]]).data_buf.length = 2 ∧
    msgsOf (run initSt [Ev.complete 0 (encodeLE 2), Ev.complete 0 [5, 6],
      Ev.complete 0 (encodeLE 1), Ev.complete 0 [7]]).log = [[5, 6], [7]] :=
  claim2_growth 2 1 [5, 6] [7] rfl rfl (by decide) (by decide)

/-- Claim C4: framing round-trip. For any payload whose length fits the
16-bit little-endian prefix, the bytes produced by the send path, fed
through the receive state machine, produce exactly one delivery to the
consumer, bitwise equal to the payload. -/
theorem claim4_roundtrip (p : List Nat) (hp : p.length < 65536) :
    (feedStream 2 (sendBytes p) initSt).log =
      [OutEvent.readIssued, OutEvent.readIssued, OutEvent.msg p, OutEvent.readIssued] ∧
    msgsOf (feedStream 2 (sendBytes p) initSt).log = [p] := by
  have h := feed_msgs [p] initSt ready_initSt (by
    intro m hm
    rw [List.mem_singleton] at hm
    subst hm
    exact hp)
  rw [show encodeStream [p] = sendBytes p from by simp [encodeStream]] at h
  rw [show (2 : Nat) * ([p] : List (List Nat)).length = 2 from rfl] at h
  exact ⟨h.2.trans rfl, by rw [h.2]; rfl⟩

/-- Witness for claim C4 on the payload 1, 2, 3. -/
theorem claim4_roundtrip_witness :
    (feedStream 2 (sendBytes [1, 2, 3]) initSt).log =
      [OutEvent.readIssued, OutEvent.readIssued, OutEvent.msg [1, 2, 3],
        OutEvent.readIssued] ∧
    msgsOf (feedStream 2 (sendBytes [1, 2, 3]) initSt).log = [[1, 2, 3]] :=
  claim4_roundtrip [1, 2, 3] (by decide)

/-- Claim C8: for an error-free scripted stream carrying three messages
back-to-back, the consumer sees exactly the three deliveries in wire
order, each delivery happening before the next read is issued, with no
disconnect notification anywhere in the log. -/
theorem claim8_ordering (m1 m2 m3 : List Nat) (h1 : m1.length < 65536)
    (h2 : m2.length < 65536) (h3 : m3.length < 65536) :
    (feedStream 6 (sendBytes m1 ++ (sendBytes m2 ++ sendBytes m3)) initSt).log =
      [OutEvent.readIssued, OutEvent.readIssued, OutEvent.msg m1, OutEvent.readIssued,
       OutEvent.readIssued, OutEvent.msg m2, OutEvent.readIssued, OutEvent.readIssued,
       OutEvent.msg m3, OutEvent.readIssued] := by
  have hm : ∀ m ∈ ([m1, m2, m3] : List (List Nat)), m.length < 65536 := by
    intro m hm
    simp only [List.mem_cons, List.not_mem_nil, or_false] at hm
    rcases hm with rfl | rfl | rfl <;> assumption
  have h := feed_msgs [m1, m2, m3] initSt ready_initSt hm
  rw [show encodeStream [m1, m2, m3] = sendBytes m1 ++ (sendBytes m2 ++ sendBytes m3)
    from by simp [encodeStream]] at h
  rw [show (2 : Nat) * ([m1, m2, m3] : List (List Nat)).length = 6 from rfl] at h
  exact h.2.trans rfl

/-- Witness for claim C8 on the messages 1, then 2 3, then 4. -/
theorem claim8_ordering_witness :
    (feedStream 6 (sendBytes [1] ++ (sendBytes [2, 3] ++ sendBytes [4])) initSt).log =
      [OutEvent.readIssued, OutEvent.readIssued, OutEvent.msg [1], OutEvent.readIssued,
       OutEvent.readIssued, OutEvent.msg [2, 3], OutEvent.readIssued, OutEvent.readIssued,
       OutEvent.msg [4], OutEvent.readIssued] :=
  claim8_ordering [1] [2, 3] [4] (by decide) (by decide) (by decide)

end Astron
